import Mathlib

/-
Shallow embedding of the ledger read path in
src/vm/compiler/src/ledger/get.rs: the height-indexed block accessors
(get_block, get_hash, get_previous_hash, get_header, get_transactions,
get_signature) and the private output-record scanner (get_output_records
with its five filters, the serial-number and tag derivations).

Block heights are u32 in the source; they are embedded as Nat, with the
one height arithmetic (height + 1 inside get_hash) taken modulo 2^32 so
that wrap-around is visible in the model. Store lookups are total maps
into Option (the source's Map::get on a well-formed store). The
cryptographic primitives are external collaborators, pure, deterministic
and fallible; they are fields of a Network structure, fallibility
modelled with Option. The iterator returned by get_output_records is
embedded as the finite list it produces; the source's Cow
borrowed/owned distinction has no observable content at this level.
-/

namespace SnarkVM

/-- The modulus of the 32-bit heights used by the ledger. -/
def U32_MOD : Nat := 2 ^ 32

/-- Typed accessor errors, one constructor per distinct bail! message in
the source. -/
inductive LedgerError where
  | missingHash (height : Nat)
  | heightRange (height : Nat)
  | missingPreviousHash (height : Nat)
  | missingHeader (height : Nat)
  | missingTransactions (height : Nat)
  | missingSignature (height : Nat)
deriving DecidableEq

/-- A block, assembled on demand from the four per-height stores. -/
structure Block (BH H T S : Type) where
  previous_hash : BH
  header : H
  transactions : T
  signature : S
deriving DecidableEq

/-- The ledger state seen by the accessors: four height-keyed stores plus
the cached current height and current hash. -/
structure Ledger (BH H T S : Type) where
  previous_hashes : Nat → Option BH
  headers : Nat → Option H
  transactions : Nat → Option T
  signatures : Nat → Option S
  current_height : Nat
  current_hash : BH

/-- Embeds get_hash: at the current height return the cached hash; below
it look up the previous-hash store at key height + 1 (u32 addition);
above it fail with a height-range error. -/
def Ledger.get_hash (L : Ledger BH H T S) (height : Nat) : Except LedgerError BH :=
  if height = L.current_height then .ok L.current_hash
  else if height < L.current_height then
    match L.previous_hashes ((height + 1) % U32_MOD) with
    | some block_hash => .ok block_hash
    | none => .error (.missingHash height)
  else .error (.heightRange height)

/-- Embeds get_previous_hash: direct lookup in the previous-hash store. -/
def Ledger.get_previous_hash (L : Ledger BH H T S) (height : Nat) : Except LedgerError BH :=
  match L.previous_hashes height with
  | some previous_hash => .ok previous_hash
  | none => .error (.missingPreviousHash height)

/-- Embeds get_header: direct lookup in the header store. -/
def Ledger.get_header (L : Ledger BH H T S) (height : Nat) : Except LedgerError H :=
  match L.headers height with
  | some header => .ok header
  | none => .error (.missingHeader height)

/-- Embeds get_transactions: direct lookup in the transactions store. -/
def Ledger.get_transactions (L : Ledger BH H T S) (height : Nat) : Except LedgerError T :=
  match L.transactions height with
  | some transactions => .ok transactions
  | none => .error (.missingTransactions height)

/-- Embeds get_signature: direct lookup in the signature store. -/
def Ledger.get_signature (L : Ledger BH H T S) (height : Nat) : Except LedgerError S :=
  match L.signatures height with
  | some signature => .ok signature
  | none => .error (.missingSignature height)

/-- Modelled from the spec: the constructor Block::from called by
get_block is not under src/; section 4.1 of the spec describes get_block
as fetching the four parts and assembling them, failing only when a part
is absent, so assembly itself is modelled as pure construction. -/
def Block.from_parts (previous_hash : BH) (header : H) (transactions : T) (signature : S) :
    Except LedgerError (Block BH H T S) :=
  .ok ⟨previous_hash, header, transactions, signature⟩

/-- Embeds get_block: fetch the previous hash, header, transactions and
signature independently at the given height and assemble them. -/
def Ledger.get_block (L : Ledger BH H T S) (height : Nat) :
    Except LedgerError (Block BH H T S) := do
  Block.from_parts (← L.get_previous_hash height) (← L.get_header height)
    (← L.get_transactions height) (← L.get_signature height)

/-- An encrypted output record: its ownership test and its decryption,
both relative to a view key. -/
structure Record (A V P : Type) where
  is_owner : A → V → Bool
  decrypt : V → Option P

/-- A private key exposes the sk_sig scalar used by the serial-number
derivation. -/
structure PrivateKey (Sc : Type) where
  sk_sig : Sc
deriving DecidableEq

/-- A graph key exposes the sk_tag group element used by the tag
derivation. -/
structure GraphKey (G : Type) where
  sk_tag : G
deriving DecidableEq

/-- The filter selecting which output records the scan yields. -/
inductive OutputRecordsFilter (Sc G : Type) where
  | All
  | AllSpent (private_key : PrivateKey Sc)
  | AllUnspent (private_key : PrivateKey Sc)
  | Spent (graph_key : GraphKey G)
  | Unspent (graph_key : GraphKey G)

/-- The external collaborators consumed by the scanner: the network's
cryptographic primitives (pure, deterministic, fallible) and the
address derivation. F is the field, G the group, Sc the scalar field,
A addresses, V view keys, P plaintext records. -/
structure Network (F G Sc A V P : Type) where
  serial_number_domain : F
  hash_psd2 : List F → Option F
  hash_to_group_psd2 : List F → Option G
  hash_to_scalar_psd2 : List F → Option Sc
  commit_bhp512 : List Bool → Sc → Option F
  smul : G → Sc → G
  mul_by_cofactor : G → G
  to_x_coordinate : G → F
  pair_to_bits_le : F → F → List Bool
  view_key_to_address : V → A

/-- A transition's output records, each paired with its commitment. -/
structure Transition (F A V P : Type) where
  output_records : List (F × Record A V P)

/-- The ledger state seen by the scanner: the historical transitions and
the two spend-index membership predicates. -/
structure ScanLedger (F A V P : Type) where
  transitions : List (Transition F A V P)
  contains_serial_number : F → Bool
  contains_tag : F → Bool

/-- Embeds the tag helper closure: Hash2to1 of sk_tag's x-coordinate and
the commitment, via hash_psd2 on the two-element input. -/
def tag (N : Network F G Sc A V P) (sk_tag commitment : F) : Option F :=
  N.hash_psd2 [sk_tag, commitment]

/-- Embeds the serial_number helper closure: hash the domain and the
commitment to a group element h, multiply by sk_sig to get gamma, hash
the x-coordinate of the cofactor-cleared gamma to the scalar sn_nonce,
and commit to the bits of (domain, commitment) under sn_nonce. -/
def serial_number (N : Network F G Sc A V P) (private_key : PrivateKey Sc)
    (commitment : F) : Option F := do
  let h ← N.hash_to_group_psd2 [N.serial_number_domain, commitment]
  let gamma := N.smul h private_key.sk_sig
  let sn_nonce ← N.hash_to_scalar_psd2
    [N.serial_number_domain, N.to_x_coordinate (N.mul_by_cofactor gamma)]
  N.commit_bhp512 (N.pair_to_bits_le N.serial_number_domain commitment) sn_nonce

/-- Reference serial-number derivation written from the spec's four
steps (section 4.2, steps a-d), to be compared with the scanner's own
serial_number: h = HashToGroup(domain, commitment); gamma = h * sk_sig;
sn_nonce = HashToScalar(domain, x_coordinate(ClearCofactor(gamma)));
serial_number = Commit(domain with commitment appended, sn_nonce). -/
def serial_number_spec (N : Network F G Sc A V P) (private_key : PrivateKey Sc)
    (commitment : F) : Option F :=
  (N.hash_to_group_psd2 [N.serial_number_domain, commitment]).bind fun h =>
    let gamma := N.smul h private_key.sk_sig
    (N.hash_to_scalar_psd2
        [N.serial_number_domain, N.to_x_coordinate (N.mul_by_cofactor gamma)]).bind
      fun sn_nonce =>
        N.commit_bhp512 (N.pair_to_bits_le N.serial_number_domain commitment) sn_nonce

/-- The spec's Hash2to1 primitive on two field elements, as consumed by
the tag scheme. -/
def hash_2to1 (N : Network F G Sc A V P) (a b : F) : Option F :=
  N.hash_psd2 [a, b]

/-- Embeds the spend-classification match of get_output_records: decide,
per filter, whether the candidate commitment proceeds to the ownership
check (some commitment) or is dropped (none). Derivation failures drop
the candidate. -/
def classify (N : Network F G Sc A V P) (L : ScanLedger F A V P)
    (filter : OutputRecordsFilter Sc G) (commitment : F) : Option F :=
  match filter with
  | .All => some commitment
  | .AllSpent private_key =>
    match serial_number N private_key commitment with
    | some sn =>
      match L.contains_serial_number sn with
      | true => some commitment
      | false => none
    | none => none
  | .AllUnspent private_key =>
    match serial_number N private_key commitment with
    | some sn =>
      match L.contains_serial_number sn with
      | true => none
      | false => some commitment
    | none => none
  | .Spent graph_key =>
    let sk_tag := N.to_x_coordinate graph_key.sk_tag
    match tag N sk_tag commitment with
    | some t =>
      match L.contains_tag t with
      | true => some commitment
      | false => none
    | none => none
  | .Unspent graph_key =>
    let sk_tag := N.to_x_coordinate graph_key.sk_tag
    match tag N sk_tag commitment with
    | some t =>
      match L.contains_tag t with
      | true => none
      | false => some commitment
    | none => none

/-- Embeds the body of the scanner's flat_map closure for one candidate
(commitment, record): spend classification, then the ownership check
against the address derived from the view key, then decryption; any
failure yields none. -/
def process_record (N : Network F G Sc A V P) (L : ScanLedger F A V P)
    (view_key : V) (address : A) (filter : OutputRecordsFilter Sc G)
    (commitment : F) (record : Record A V P) : Option (F × P) :=
  match classify N L filter commitment with
  | none => none
  | some commitment =>
    match record.is_owner address view_key with
    | true =>
      match record.decrypt view_key with
      | some record => some (commitment, record)
      | none => none
    | false => none

/-- The ownership-then-decryption tail of the per-candidate processing,
factored out for the proofs below. -/
def own_decrypt (view_key : V) (address : A) (commitment : F)
    (record : Record A V P) : Option (F × P) :=
  match record.is_owner address view_key with
  | true =>
    match record.decrypt view_key with
    | some record => some (commitment, record)
    | none => none
  | false => none

/-- The flattened stream of candidate output records across all
transitions in ledger history, in storage order. -/
def output_record_candidates (L : ScanLedger F A V P) : List (F × Record A V P) :=
  (L.transitions.map Transition.output_records).flatten

/-- The scan applied to an explicit candidate list: per-candidate
processing with failures absorbed (filterMap). -/
def scan_records (N : Network F G Sc A V P) (L : ScanLedger F A V P)
    (view_key : V) (filter : OutputRecordsFilter Sc G)
    (candidates : List (F × Record A V P)) : List (F × P) :=
  candidates.filterMap fun cr =>
    process_record N L view_key (N.view_key_to_address view_key) filter cr.1 cr.2

/-- Embeds get_output_records: derive the address once from the view
key, flatten the output records of all transitions, and process each
candidate, keeping the survivors in order. -/
def get_output_records (N : Network F G Sc A V P) (L : ScanLedger F A V P)
    (view_key : V) (filter : OutputRecordsFilter Sc G) : List (F × P) :=
  scan_records N L view_key filter (output_record_candidates L)

/-- A concrete ledger over Nat-valued stores, used to instantiate the
accessor theorems: height 2 is current, the store entries for heights
0..2 are present. -/
def natLedger : Ledger Nat Nat Nat Nat where
  previous_hashes := fun h => if h ≤ 2 then some (70 + h) else none
  headers := fun h => if h ≤ 2 then some (80 + h) else none
  transactions := fun h => if h ≤ 2 then some (90 + h) else none
  signatures := fun h => if h ≤ 2 then some (60 + h) else none
  current_height := 2
  current_hash := 99

/-- A concrete network over Nat carriers with total primitives, used to
instantiate the scanner theorems. -/
def natNetwork : Network Nat Nat Nat Nat Nat Nat where
  serial_number_domain := 3
  hash_psd2 := fun l => some (l.foldl (fun a b => 2 * a + b) 1)
  hash_to_group_psd2 := fun l => some (l.foldl (fun a b => 3 * a + b) 1)
  hash_to_scalar_psd2 := fun l => some (l.foldl (fun a b => 5 * a + b) 1)
  commit_bhp512 := fun bits s => some (bits.length + 7 * s)
  smul := fun g s => g * s + 1
  mul_by_cofactor := fun g => 2 * g
  to_x_coordinate := fun g => g + 1
  pair_to_bits_le := fun a b => List.replicate (a + b) true
  view_key_to_address := fun v => v + 100

/-- The same network with a failing hash-to-group primitive: every
serial-number derivation fails. -/
def failNetwork : Network Nat Nat Nat Nat Nat Nat :=
  { natNetwork with hash_to_group_psd2 := fun _ => none }

/-- The same network with a failing two-to-one hash: every tag
derivation fails. -/
def failTagNetwork : Network Nat Nat Nat Nat Nat Nat :=
  { natNetwork with hash_psd2 := fun _ => none }

/-- A record owned by every address and decrypting to 5. -/
def ownedRecord : Record Nat Nat Nat where
  is_owner := fun _ _ => true
  decrypt := fun _ => some 5

/-- A record owned by no address. -/
def foreignRecord : Record Nat Nat Nat where
  is_owner := fun _ _ => false
  decrypt := fun _ => some 6

/-- A concrete scan ledger holding one transition with one owned record
at commitment 11 and one foreign record at commitment 12; both spend
indices are empty. -/
def natScanLedger : ScanLedger Nat Nat Nat Nat where
  transitions := [⟨[(11, ownedRecord), (12, foreignRecord)]⟩]
  contains_serial_number := fun _ => false
  contains_tag := fun _ => false

/-- The same scan ledger with both spend indices full. -/
def fullScanLedger : ScanLedger Nat Nat Nat Nat :=
  { natScanLedger with
      contains_serial_number := fun _ => true
      contains_tag := fun _ => true }

/-- The concrete ledger with an empty previous-hash store, exercising
the missing-hash branch of get_hash. -/
def gapLedger : Ledger Nat Nat Nat Nat :=
  { natLedger with previous_hashes := fun _ => none }

/-- C1: get_hash returns the cached current_hash at the current height;
below the tip it returns the previous-hash store entry at key height + 1
when present and fails with the missing-hash error when absent; above
the tip it fails with the height-range error without consulting any
store (every ledger sharing the current height fails identically). -/
theorem get_hash_spec (L : Ledger BH H T S) (height : Nat)
    (hcur : L.current_height < U32_MOD) :
    (height = L.current_height → L.get_hash height = .ok L.current_hash) ∧
    (height < L.current_height →
      L.get_hash height =
        match L.previous_hashes (height + 1) with
        | some block_hash => .ok block_hash
        | none => .error (.missingHash height)) ∧
    (L.current_height < height →
      ∀ L' : Ledger BH H T S, L'.current_height = L.current_height →
        L'.get_hash height = .error (.heightRange height)) := by
  refine ⟨fun h => by simp [Ledger.get_hash, h], fun h => ?_, fun h L' hL' => ?_⟩
  · have hne : height ≠ L.current_height := Nat.ne_of_lt h
    have hm : (height + 1) % U32_MOD = height + 1 :=
      Nat.mod_eq_of_lt (lt_of_le_of_lt h hcur)
    simp only [Ledger.get_hash, if_neg hne, if_pos h, hm]
  · have hne : height ≠ L'.current_height := by omega
    have hnlt : ¬ height < L'.current_height := by omega
    simp only [Ledger.get_hash, if_neg hne, if_neg hnlt]

/-- Witness for C1 on the concrete ledger: all three branches at their
respective heights. -/
theorem get_hash_spec_witness :
    natLedger.get_hash 2 = .ok 99 ∧
    natLedger.get_hash 1 = .ok 72 ∧
    natLedger.get_hash 3 = .error (.heightRange 3) := by
  have h1 := (get_hash_spec natLedger 2 (by decide)).1 rfl
  have h2 := (get_hash_spec natLedger 1 (by decide)).2.1 (by decide)
  have h3 := (get_hash_spec natLedger 3 (by decide)).2.2 (by decide) natLedger rfl
  exact ⟨h1, by simpa [natLedger] using h2, h3⟩

/-- C5: at any height up to the tip where all four stores have an entry,
get_block succeeds, and its four fields are exactly the values the four
individual accessors return. -/
theorem get_block_round_trip (L : Ledger BH H T S) (height : Nat)
    (a : BH) (b : H) (c : T) (d : S)
    (_hh : height ≤ L.current_height)
    (h1 : L.previous_hashes height = some a) (h2 : L.headers height = some b)
    (h3 : L.transactions height = some c) (h4 : L.signatures height = some d) :
    L.get_block height = .ok ⟨a, b, c, d⟩ ∧
    L.get_previous_hash height = .ok a ∧ L.get_header height = .ok b ∧
    L.get_transactions height = .ok c ∧ L.get_signature height = .ok d := by
  refine ⟨?_, ?_, ?_, ?_, ?_⟩ <;>
    simp only [Ledger.get_block, Ledger.get_previous_hash, Ledger.get_header,
      Ledger.get_transactions, Ledger.get_signature, Block.from_parts,
      h1, h2, h3, h4, bind, Except.bind]

/-- Witness for C5 on the concrete ledger at height 1. -/
theorem get_block_round_trip_witness :
    natLedger.get_block 1 = .ok ⟨71, 81, 91, 61⟩ :=
  (get_block_round_trip natLedger 1 71 81 91 61 (by decide) (by decide)
    (by decide) (by decide) (by decide)).1

/-- C6: below the tip, when the previous-hash store has an entry at
height + 1, get_hash at a height agrees with get_previous_hash at the
successor height; and get_hash at the current height is the cached
current hash. -/
theorem hash_chain_consistency (L : Ledger BH H T S) (height : Nat) (b : BH)
    (hcur : L.current_height < U32_MOD) (hlt : height < L.current_height)
    (hb : L.previous_hashes (height + 1) = some b) :
    L.get_hash height = L.get_previous_hash (height + 1) ∧
    L.get_hash L.current_height = .ok L.current_hash := by
  constructor
  · have hne : height ≠ L.current_height := Nat.ne_of_lt hlt
    have hm : (height + 1) % U32_MOD = height + 1 :=
      Nat.mod_eq_of_lt (lt_of_le_of_lt hlt hcur)
    simp only [Ledger.get_hash, Ledger.get_previous_hash, if_neg hne,
      if_pos hlt, hm, hb]
  · simp [Ledger.get_hash]

/-- Witness for C6 on the concrete ledger at height 0. -/
theorem hash_chain_consistency_witness :
    natLedger.get_hash 0 = natLedger.get_previous_hash 1 ∧
    natLedger.get_hash 2 = .ok 99 :=
  hash_chain_consistency natLedger 0 71 (by decide) (by decide) (by decide)

/-- C9: all accessors are total functions of the ledger state (they are
Lean functions by construction); absence of a store entry yields the
corresponding reported error value, never a fault; and the height + 1
computed inside get_hash is evaluated only under height < current
height, where it stays below the u32 modulus, so the u32 addition
cannot wrap. -/
theorem accessor_totality (L : Ledger BH H T S) (height : Nat)
    (hcur : L.current_height < U32_MOD) :
    (height < L.current_height →
      (height + 1) % U32_MOD = height + 1 ∧ height + 1 < U32_MOD) ∧
    (height < L.current_height → L.previous_hashes (height + 1) = none →
      L.get_hash height = .error (.missingHash height)) ∧
    (L.previous_hashes height = none →
      L.get_previous_hash height = .error (.missingPreviousHash height)) ∧
    (L.headers height = none →
      L.get_header height = .error (.missingHeader height)) ∧
    (L.transactions height = none →
      L.get_transactions height = .error (.missingTransactions height)) ∧
    (L.signatures height = none →
      L.get_signature height = .error (.missingSignature height)) := by
  have hmod : height < L.current_height → (height + 1) % U32_MOD = height + 1 :=
    fun h => Nat.mod_eq_of_lt (lt_of_le_of_lt h hcur)
  refine ⟨fun h => ⟨hmod h, lt_of_le_of_lt h hcur⟩, fun h hnone => ?_,
    fun hnone => ?_, fun hnone => ?_, fun hnone => ?_, fun hnone => ?_⟩
  · have hne : height ≠ L.current_height := Nat.ne_of_lt h
    simp only [Ledger.get_hash, if_neg hne, if_pos h, hmod h, hnone]
  · simp only [Ledger.get_previous_hash, hnone]
  · simp only [Ledger.get_header, hnone]
  · simp only [Ledger.get_transactions, hnone]
  · simp only [Ledger.get_signature, hnone]

/-- Witness for C9: the no-wrap bound below the tip of the gap ledger,
the missing-hash branch there, and each missing-entry error at an
absent height of the concrete ledger. -/
theorem accessor_totality_witness :
    ((1 + 1) % U32_MOD = 1 + 1 ∧ 1 + 1 < U32_MOD) ∧
    gapLedger.get_hash 1 = .error (.missingHash 1) ∧
    natLedger.get_previous_hash 5 = .error (.missingPreviousHash 5) ∧
    natLedger.get_header 5 = .error (.missingHeader 5) ∧
    natLedger.get_transactions 5 = .error (.missingTransactions 5) ∧
    natLedger.get_signature 5 = .error (.missingSignature 5) :=
  ⟨(accessor_totality gapLedger 1 (by decide)).1 (by decide),
    (accessor_totality gapLedger 1 (by decide)).2.1 (by decide) (by decide),
    (accessor_totality natLedger 5 (by decide)).2.2.1 (by decide),
    (accessor_totality natLedger 5 (by decide)).2.2.2.1 (by decide),
    (accessor_totality natLedger 5 (by decide)).2.2.2.2.1 (by decide),
    (accessor_totality natLedger 5 (by decide)).2.2.2.2.2 (by decide)⟩

/-- Equation lemma: the All filter passes every commitment. -/
theorem classify_all (N : Network F G Sc A V P) (L : ScanLedger F A V P)
    (c : F) : classify N L .All c = some c := rfl

/-- Helper: classify never rewrites the commitment it passes on. -/
theorem classify_commitment (N : Network F G Sc A V P) (L : ScanLedger F A V P)
    (filter : OutputRecordsFilter Sc G) (c c' : F)
    (h : classify N L filter c = some c') : c' = c := by
  cases filter <;> simp only [classify] at h
  all_goals try split at h
  all_goals try split at h
  all_goals
    first
      | exact (Option.some.inj h).symm
      | exact absurd h (by simp)

/-- Helper: processing a candidate is classification followed by the
ownership-and-decryption tail. -/
theorem process_record_eq (N : Network F G Sc A V P) (L : ScanLedger F A V P)
    (view_key : V) (address : A) (filter : OutputRecordsFilter Sc G)
    (c : F) (r : Record A V P) :
    process_record N L view_key address filter c r =
      (classify N L filter c).bind fun c' => own_decrypt view_key address c' r := by
  cases hc : classify N L filter c <;>
    simp only [process_record, own_decrypt, hc, Option.bind]

/-- Helper: two processings agree whenever their classifications agree. -/
theorem process_record_congr (N : Network F G Sc A V P)
    (L1 L2 : ScanLedger F A V P) (view_key : V) (address : A)
    (f1 f2 : OutputRecordsFilter Sc G) (c : F) (r : Record A V P)
    (h : classify N L1 f1 c = classify N L2 f2 c) :
    process_record N L1 view_key address f1 c r =
      process_record N L2 view_key address f2 c r := by
  rw [process_record_eq, process_record_eq, h]

/-- Helper: inversion of a successful processing: the yielded commitment
is the candidate's, the record passed the ownership check and decrypted
to the yielded plaintext, and classification passed. -/
theorem process_record_some (N : Network F G Sc A V P) (L : ScanLedger F A V P)
    (view_key : V) (address : A) (filter : OutputRecordsFilter Sc G)
    (c : F) (r : Record A V P) (p : F × P)
    (h : process_record N L view_key address filter c r = some p) :
    p.1 = c ∧ r.is_owner address view_key = true ∧
      r.decrypt view_key = some p.2 ∧ classify N L filter c = some c := by
  rw [process_record_eq] at h
  have hc : ∃ c', classify N L filter c = some c' := by
    cases hcl : classify N L filter c
    · rw [hcl, Option.none_bind] at h
      exact absurd h (by simp)
    · exact ⟨_, rfl⟩
  obtain ⟨c', hcl⟩ := hc
  have hcc := classify_commitment N L filter c c' hcl
  subst hcc
  rw [hcl, Option.some_bind] at h
  refine ?_
  unfold own_decrypt at h
  split at h
  · split at h
    · refine ⟨congrArg Prod.fst (Option.some.inj h).symm, by assumption, ?_, hcl⟩
      rw [(by assumption : r.decrypt view_key = some _)]
      exact congrArg some (congrArg Prod.snd (Option.some.inj h))
    · exact absurd h (by simp)
  · exact absurd h (by simp)

/-- Helper: membership in a scan over an explicit candidate list. -/
theorem mem_scan_records (N : Network F G Sc A V P) (L : ScanLedger F A V P)
    (view_key : V) (filter : OutputRecordsFilter Sc G)
    (candidates : List (F × Record A V P)) (p : F × P) :
    p ∈ scan_records N L view_key filter candidates ↔
      ∃ cr, cr ∈ candidates ∧
        process_record N L view_key (N.view_key_to_address view_key) filter
          cr.1 cr.2 = some p := by
  simp [scan_records, List.mem_filterMap]

/-- Helper: a passing AllSpent classification means the derived serial
number is in the spend index. -/
theorem classify_allSpent_some (N : Network F G Sc A V P)
    (L : ScanLedger F A V P) (k : PrivateKey Sc) (c c' : F)
    (h : classify N L (.AllSpent k) c = some c') :
    ∃ sn, serial_number N k c = some sn ∧ L.contains_serial_number sn = true := by
  simp only [classify] at h
  split at h
  · split at h
    · exact ⟨_, by assumption, by assumption⟩
    · exact absurd h (by simp)
  · exact absurd h (by simp)

/-- Helper: a passing AllUnspent classification means the derived serial
number is outside the spend index. -/
theorem classify_allUnspent_some (N : Network F G Sc A V P)
    (L : ScanLedger F A V P) (k : PrivateKey Sc) (c c' : F)
    (h : classify N L (.AllUnspent k) c = some c') :
    ∃ sn, serial_number N k c = some sn ∧ L.contains_serial_number sn = false := by
  simp only [classify] at h
  split at h
  · split at h
    · exact absurd h (by simp)
    · exact ⟨_, by assumption, by assumption⟩
  · exact absurd h (by simp)

/-- C2: the serial number the scanner derives for the AllSpent and
AllUnspent filters equals the spec's four-step reference derivation
(hash to group, scalar-multiply by sk_sig, hash the x-coordinate of the
cofactor-cleared point to a scalar, commit); and when any step fails the
single candidate is dropped — both filters process it to nothing and the
scan of a list is the scan without it. -/
theorem serial_number_matches_reference (N : Network F G Sc A V P)
    (L : ScanLedger F A V P) (view_key : V) (k : PrivateKey Sc) (c : F)
    (r : Record A V P) (rest : List (F × Record A V P)) :
    serial_number N k c = serial_number_spec N k c ∧
    (serial_number N k c = none →
      process_record N L view_key (N.view_key_to_address view_key)
        (.AllSpent k) c r = none ∧
      process_record N L view_key (N.view_key_to_address view_key)
        (.AllUnspent k) c r = none ∧
      scan_records N L view_key (.AllSpent k) ((c, r) :: rest) =
        scan_records N L view_key (.AllSpent k) rest ∧
      scan_records N L view_key (.AllUnspent k) ((c, r) :: rest) =
        scan_records N L view_key (.AllUnspent k) rest) := by
  refine ⟨rfl, fun hf => ?_⟩
  have h1 : process_record N L view_key (N.view_key_to_address view_key)
      (.AllSpent k) c r = none := by
    rw [process_record_eq]
    simp only [classify, hf, Option.none_bind]
  have h2 : process_record N L view_key (N.view_key_to_address view_key)
      (.AllUnspent k) c r = none := by
    rw [process_record_eq]
    simp only [classify, hf, Option.none_bind]
  refine ⟨h1, h2, ?_, ?_⟩ <;>
    simp only [scan_records, List.filterMap_cons, h1, h2]

/-- Witness for C2 under the network whose hash-to-group primitive
fails: the derivation agreement and the drop of the failing candidate. -/
theorem serial_number_matches_reference_witness :
    serial_number failNetwork ⟨2⟩ 11 = serial_number_spec failNetwork ⟨2⟩ 11 ∧
    (process_record failNetwork natScanLedger 0
        (failNetwork.view_key_to_address 0)
        (OutputRecordsFilter.AllSpent ⟨2⟩) 11 ownedRecord = none ∧
      process_record failNetwork natScanLedger 0
        (failNetwork.view_key_to_address 0)
        (OutputRecordsFilter.AllUnspent ⟨2⟩) 11 ownedRecord = none ∧
      scan_records failNetwork natScanLedger 0
          (OutputRecordsFilter.AllSpent ⟨2⟩) [(11, ownedRecord), (12, foreignRecord)] =
        scan_records failNetwork natScanLedger 0
          (OutputRecordsFilter.AllSpent ⟨2⟩) [(12, foreignRecord)] ∧
      scan_records failNetwork natScanLedger 0
          (OutputRecordsFilter.AllUnspent ⟨2⟩) [(11, ownedRecord), (12, foreignRecord)] =
        scan_records failNetwork natScanLedger 0
          (OutputRecordsFilter.AllUnspent ⟨2⟩) [(12, foreignRecord)]) :=
  ⟨(serial_number_matches_reference failNetwork natScanLedger 0 ⟨2⟩ 11
      ownedRecord [(12, foreignRecord)]).1,
    (serial_number_matches_reference failNetwork natScanLedger 0 ⟨2⟩ 11
      ownedRecord [(12, foreignRecord)]).2 (by decide)⟩

/-- C4: every pair yielded by get_output_records comes from a candidate
whose record passes is_owner for the address derived from the view key
(and decrypts to the yielded plaintext), for every filter. -/
theorem ownership_gating (N : Network F G Sc A V P) (L : ScanLedger F A V P)
    (view_key : V) (filter : OutputRecordsFilter Sc G) (p : F × P)
    (hp : p ∈ get_output_records N L view_key filter) :
    ∃ cr, cr ∈ output_record_candidates L ∧ cr.1 = p.1 ∧
      (cr.2).is_owner (N.view_key_to_address view_key) view_key = true ∧
      (cr.2).decrypt view_key = some p.2 := by
  rw [get_output_records] at hp
  obtain ⟨cr, hmem, hproc⟩ := (mem_scan_records N L view_key filter _ p).1 hp
  obtain ⟨h1, h2, h3, -⟩ := process_record_some N L view_key
    (N.view_key_to_address view_key) filter cr.1 cr.2 p hproc
  exact ⟨cr, hmem, h1.symm, h2, h3⟩

/-- Witness for C4: the owned record of the concrete scan ledger is the
candidate behind the yielded pair (11, 5). -/
theorem ownership_gating_witness :
    ∃ cr, cr ∈ output_record_candidates natScanLedger ∧ cr.1 = 11 ∧
      (cr.2).is_owner (natNetwork.view_key_to_address 0) 0 = true ∧
      (cr.2).decrypt 0 = some 5 :=
  ownership_gating natNetwork natScanLedger 0 .All (11, 5) (by decide)

/-- C7: the scanner's tag for the Spent and Unspent filters is Hash2to1
of the x-coordinate of the graph key's sk_tag and the commitment; Spent
passes exactly the candidates whose tag is in the spend index, Unspent
exactly those whose tag is not, and a failed tag derivation drops the
candidate under both. -/
theorem tag_filter_characterization (N : Network F G Sc A V P)
    (L : ScanLedger F A V P) (gk : GraphKey G) (c : F) :
    tag N (N.to_x_coordinate gk.sk_tag) c
        = hash_2to1 N (N.to_x_coordinate gk.sk_tag) c ∧
    (classify N L (.Spent gk) c = some c ↔
      ∃ t, hash_2to1 N (N.to_x_coordinate gk.sk_tag) c = some t ∧
        L.contains_tag t = true) ∧
    (classify N L (.Unspent gk) c = some c ↔
      ∃ t, hash_2to1 N (N.to_x_coordinate gk.sk_tag) c = some t ∧
        L.contains_tag t = false) ∧
    (hash_2to1 N (N.to_x_coordinate gk.sk_tag) c = none →
      classify N L (.Spent gk) c = none ∧ classify N L (.Unspent gk) c = none) := by
  have htag : tag N (N.to_x_coordinate gk.sk_tag) c
      = hash_2to1 N (N.to_x_coordinate gk.sk_tag) c := rfl
  refine ⟨htag, ?_, ?_, fun hn => ?_⟩
  · cases ht : tag N (N.to_x_coordinate gk.sk_tag) c with
    | none => simp [classify, ht, ← htag]
    | some t => cases hct : L.contains_tag t <;> simp [classify, ht, ← htag, hct]
  · cases ht : tag N (N.to_x_coordinate gk.sk_tag) c with
    | none => simp [classify, ht, ← htag]
    | some t => cases hct : L.contains_tag t <;> simp [classify, ht, ← htag, hct]
  · rw [← htag] at hn
    constructor <;> simp [classify, hn]

/-- Witness for C7: the failing tag network drops the candidate under
both tag filters, and the full spend index makes the Spent filter pass
the concrete commitment. -/
theorem tag_filter_characterization_witness :
    (classify failTagNetwork natScanLedger (OutputRecordsFilter.Spent ⟨4⟩) 11 = none ∧
      classify failTagNetwork natScanLedger (OutputRecordsFilter.Unspent ⟨4⟩) 11 = none) ∧
    (∃ t, hash_2to1 natNetwork (natNetwork.to_x_coordinate (4 : Nat)) 11 = some t ∧
      fullScanLedger.contains_tag t = true) :=
  ⟨(tag_filter_characterization failTagNetwork natScanLedger ⟨4⟩ 11).2.2.2 (by decide),
    (tag_filter_characterization natNetwork fullScanLedger ⟨4⟩ 11).2.1.mp (by decide)⟩

/-- C8: a candidate whose processing fails (derivation, ownership or
decryption) is excluded while the scan of the surrounding candidates is
unchanged, and the scan's result is always a finite sequence no longer
than the candidate stream — the overall call never fails. -/
theorem scan_error_containment (N : Network F G Sc A V P)
    (L : ScanLedger F A V P) (view_key : V) (filter : OutputRecordsFilter Sc G)
    (xs ys : List (F × Record A V P)) (c : F) (r : Record A V P)
    (hfail : process_record N L view_key (N.view_key_to_address view_key)
      filter c r = none) :
    scan_records N L view_key filter (xs ++ (c, r) :: ys) =
      scan_records N L view_key filter xs ++ scan_records N L view_key filter ys ∧
    (get_output_records N L view_key filter).length ≤
      (output_record_candidates L).length := by
  constructor
  · simp only [scan_records, List.filterMap_append, List.filterMap_cons, hfail]
  · exact List.length_filterMap_le _ _

/-- Witness for C8: dropping the foreign record of the concrete ledger
leaves the scan of the remaining candidate intact, and the scan is no
longer than the candidate stream. -/
theorem scan_error_containment_witness :
    scan_records natNetwork natScanLedger 0 OutputRecordsFilter.All
        ([(11, ownedRecord)] ++ (12, foreignRecord) :: []) =
      scan_records natNetwork natScanLedger 0 OutputRecordsFilter.All [(11, ownedRecord)] ++
        scan_records natNetwork natScanLedger 0 OutputRecordsFilter.All [] ∧
    (get_output_records natNetwork natScanLedger 0 OutputRecordsFilter.All).length ≤
      (output_record_candidates natScanLedger).length :=
  scan_error_containment natNetwork natScanLedger 0 .All
    [(11, ownedRecord)] [] 12 foreignRecord (by decide)

/-- C10: the All-filter scan never consults the spend index: two
ledgers with the same transition history but arbitrary, possibly
different, serial-number and tag membership predicates produce the same
output sequence for the same view key. -/
theorem all_filter_spend_index_independence (N : Network F G Sc A V P)
    (L1 L2 : ScanLedger F A V P) (view_key : V)
    (ht : L1.transitions = L2.transitions) :
    get_output_records N L1 view_key .All = get_output_records N L2 view_key .All := by
  unfold get_output_records scan_records output_record_candidates
  rw [ht]
  refine List.filterMap_congr fun cr hcr => ?_
  exact process_record_congr N L1 L2 view_key (N.view_key_to_address view_key)
    .All .All cr.1 cr.2 rfl

/-- Witness for C10: the empty and the full spend index give the same
All-filter scan over the shared transition list. -/
theorem all_filter_spend_index_independence_witness :
    get_output_records natNetwork natScanLedger 0 OutputRecordsFilter.All =
      get_output_records natNetwork fullScanLedger 0 OutputRecordsFilter.All :=
  all_filter_spend_index_independence natNetwork natScanLedger fullScanLedger 0 rfl

/-- C3 (amended): for a fixed view key, ledger state and private key,
the AllSpent and AllUnspent result sets are disjoint; and provided the
serial-number derivation succeeds on every candidate commitment, their
union equals the All result set (which the code already restricts to
owned, decryptable records). -/
theorem filter_exclusivity_amended (N : Network F G Sc A V P)
    (L : ScanLedger F A V P) (view_key : V) (k : PrivateKey Sc) :
    (∀ p, p ∈ get_output_records N L view_key (.AllSpent k) →
      p ∉ get_output_records N L view_key (.AllUnspent k)) ∧
    ((∀ cr ∈ output_record_candidates L, (serial_number N k cr.1).isSome = true) →
      ∀ p, p ∈ get_output_records N L view_key .All ↔
        (p ∈ get_output_records N L view_key (.AllSpent k) ∨
          p ∈ get_output_records N L view_key (.AllUnspent k))) := by
  constructor
  · intro p hpA hpU
    rw [get_output_records] at hpA hpU
    obtain ⟨cr, hm, hproc⟩ := (mem_scan_records N L view_key _ _ p).1 hpA
    obtain ⟨cr', hm', hproc'⟩ := (mem_scan_records N L view_key _ _ p).1 hpU
    obtain ⟨h1, -, -, hcl⟩ := process_record_some N L view_key _ _ cr.1 cr.2 p hproc
    obtain ⟨h1', -, -, hcl'⟩ := process_record_some N L view_key _ _ cr'.1 cr'.2 p hproc'
    obtain ⟨sn, hsn, hmem⟩ := classify_allSpent_some N L k cr.1 cr.1 hcl
    obtain ⟨sn', hsn', hmem'⟩ := classify_allUnspent_some N L k cr'.1 cr'.1 hcl'
    rw [← h1] at hsn
    rw [← h1'] at hsn'
    rw [hsn] at hsn'
    cases Option.some.inj hsn'
    rw [hmem] at hmem'
    exact Bool.true_eq_false.mp hmem'
  · intro hder p
    rw [get_output_records, get_output_records, get_output_records,
      mem_scan_records, mem_scan_records, mem_scan_records]
    constructor
    · rintro ⟨cr, hm, hproc⟩
      obtain ⟨sn, hsn⟩ := Option.isSome_iff_exists.mp (hder cr hm)
      cases hmem : L.contains_serial_number sn with
      | true =>
        refine Or.inl ⟨cr, hm, ?_⟩
        rw [← hproc]
        refine process_record_congr N L L view_key _ _ _ cr.1 cr.2 ?_
        simp [classify, hsn, hmem]
      | false =>
        refine Or.inr ⟨cr, hm, ?_⟩
        rw [← hproc]
        refine process_record_congr N L L view_key _ _ _ cr.1 cr.2 ?_
        simp [classify, hsn, hmem]
    · rintro (⟨cr, hm, hproc⟩ | ⟨cr, hm, hproc⟩)
      · obtain ⟨-, -, -, hcl⟩ := process_record_some N L view_key _ _ cr.1 cr.2 p hproc
        refine ⟨cr, hm, ?_⟩
        rw [← hproc]
        exact process_record_congr N L L view_key _ _ _ cr.1 cr.2
          (by rw [classify_all, hcl])
      · obtain ⟨-, -, -, hcl⟩ := process_record_some N L view_key _ _ cr.1 cr.2 p hproc
        refine ⟨cr, hm, ?_⟩
        rw [← hproc]
        exact process_record_congr N L L view_key _ _ _ cr.1 cr.2
          (by rw [classify_all, hcl])

/-- Witness for C3 (amended): under the total concrete network every
derivation succeeds; at the concrete ledger the All result (11, 5) sits
in the union, and the AllSpent result set excludes it. -/
theorem filter_exclusivity_amended_witness :
    ((11, 5) ∉ get_output_records natNetwork natScanLedger 0
      (OutputRecordsFilter.AllUnspent ⟨2⟩) ∨
      (11, 5) ∈ get_output_records natNetwork natScanLedger 0
        (OutputRecordsFilter.AllSpent ⟨2⟩) ∨
      (11, 5) ∈ get_output_records natNetwork natScanLedger 0
        (OutputRecordsFilter.AllUnspent ⟨2⟩)) ∧
    ((11, 5) ∈ get_output_records natNetwork natScanLedger 0
      OutputRecordsFilter.All) := by
  constructor
  · exact Or.inr (((filter_exclusivity_amended natNetwork natScanLedger 0 ⟨2⟩).2
      (by decide) (11, 5)).mp (by decide))
  · decide

/-- Counterexample for C3 as frozen: under a network whose hash-to-group
primitive fails, the owned record is yielded by All but by neither
AllSpent nor AllUnspent, so the union of the two spent-classified result
sets is not the All result set. -/
theorem filter_exclusivity_counterexample :
    ¬ ((∀ p, p ∈ get_output_records failNetwork natScanLedger 0
          (OutputRecordsFilter.AllSpent ⟨2⟩) →
        p ∉ get_output_records failNetwork natScanLedger 0
          (OutputRecordsFilter.AllUnspent ⟨2⟩)) ∧
      (∀ p, p ∈ get_output_records failNetwork natScanLedger 0
          OutputRecordsFilter.All ↔
        (p ∈ get_output_records failNetwork natScanLedger 0
            (OutputRecordsFilter.AllSpent ⟨2⟩) ∨
          p ∈ get_output_records failNetwork natScanLedger 0
            (OutputRecordsFilter.AllUnspent ⟨2⟩)))) := by
  intro h
  rcases (h.2 (11, 5)).mp (by decide) with hmem | hmem <;>
    exact absurd hmem (by decide)

end SnarkVM
